import Mathlib

/-!
Shallow embedding of the abstract schema model, deferred-type resolution and
schema-diff algorithm of propane_core/src/adb.rs.

Rust HashSet/HashMap containers are modelled as lists; the custom PartialEq
impls of ATable and AColumn (name-only equality) are modelled as explicit
boolean equivalence functions passed to the set operations, exactly as the
std containers use them.  Rust functions that can fail return Except; Rust
code whose termination is in question (TypeResolver::insert calls itself,
ADB::resolve_types loops while progress is made) is modelled with an explicit
fuel parameter: a result of none means the computation did not finish within
the given fuel, and a divergence theorem quantifies over all fuels.
-/

/-- Modelled from the spec: SqlType is an external, opaque closed set of
column type kinds (crate::SqlType is consumed, not defined, by adb.rs).
A representative closed enumeration. -/
inductive SqlType
  | Bool
  | Int
  | BigInt
  | Real
  | Text
  | Date
  | Timestamp
  | Blob
deriving DecidableEq, Repr

/-- Modelled from the spec: SqlVal is the external domain of literal column
values (crate::SqlVal), used only as the payload of a column default.
A representative closed set of literals. -/
inductive SqlVal
  | Null
  | Bool (b : Bool)
  | Int (i : Int)
  | Text (s : String)
deriving DecidableEq, Repr

/-- Error type: the variants of crate::Error that adb.rs constructs. -/
inductive AError
  | NoPK (table : String)
  | UnknownSqlType (ty : String)
deriving DecidableEq, Repr

/-- enum TypeKey: identifies a type that could not be resolved locally.
The only variant is the primary-key type of the named table. -/
inductive TypeKey
  | PK (name : String)
deriving DecidableEq, Repr

/-- impl Display for TypeKey (via TypeKeyRef): "PK(name)". -/
def TypeKey.toStr : TypeKey → String
  | TypeKey.PK s => "PK(" ++ s ++ ")"

/-- struct TypeResolver: a map (HashMap, modelled as an association list)
from TypeKey to a resolved SqlType. -/
structure TypeResolver where
  types : List (TypeKey × SqlType)
deriving DecidableEq, Repr

/-- TypeResolver::new. -/
def TypeResolver.new : TypeResolver := { types := [] }

/-- HashMap::contains_key on the modelled map. -/
def TypeResolver.contains_key (r : TypeResolver) (key : TypeKey) : Bool :=
  r.types.any (fun p => p.1 == key)

/-- TypeResolver::find_type: pure lookup. -/
def TypeResolver.find_type (r : TypeResolver) (key : TypeKey) : Option SqlType :=
  (r.types.find? (fun p => p.1 == key)).map (fun p => p.2)

/-- TypeResolver::insert, modelled with fuel.  The source reads

    if self.types.contains_key(&key) { false }
    else { self.insert(key, ty); true }

so on the absent-key path it re-invokes itself (instead of inserting into
the underlying map) and then returns true.  A result of none means the
call did not finish within the given fuel; the returned pair is the
resolver state after the call together with the returned bool. -/
def TypeResolver.insert : Nat → TypeResolver → TypeKey → SqlType → Option (TypeResolver × Bool)
  | 0, _, _, _ => none
  | fuel + 1, r, key, ty =>
    if r.contains_key key then
      some (r, false)
    else
      match TypeResolver.insert fuel r key ty with
      | none => none
      | some (r2, _) => some (r2, true)

/-- TypeResolver::insert_pk: convenience wrapper building the PK key. -/
def TypeResolver.insert_pk (fuel : Nat) (r : TypeResolver) (key : String) (ty : SqlType) :
    Option (TypeResolver × Bool) :=
  TypeResolver.insert fuel r (TypeKey.PK key) ty

/-- enum DeferredSqlType: a concretely known type or a deferred key. -/
inductive DeferredSqlType
  | Known (t : SqlType)
  | Deferred (k : TypeKey)
deriving DecidableEq, Repr

/-- DeferredSqlType::resolve: a Known type resolves to itself; a Deferred
key is looked up in the resolver, failing with UnknownSqlType if absent. -/
def DeferredSqlType.resolve (d : DeferredSqlType) (r : TypeResolver) : Except AError SqlType :=
  match d with
  | DeferredSqlType.Known t => Except.ok t
  | DeferredSqlType.Deferred key =>
    match r.find_type key with
    | some t => Except.ok t
    | none => Except.error (AError.UnknownSqlType key.toStr)

/-- struct AColumn. -/
structure AColumn where
  name : String
  sqltype : DeferredSqlType
  nullable : Bool
  pk : Bool
  default : Option SqlVal
deriving DecidableEq, Repr

/-- AColumn::is_pk. -/
def AColumn.is_pk (c : AColumn) : Bool := c.pk

/-- AColumn::sqltype (the accessor method): Known yields the type, Deferred
fails with UnknownSqlType naming the deferred key. -/
def AColumn.sqltypeResult (c : AColumn) : Except AError SqlType :=
  match c.sqltype with
  | DeferredSqlType.Known t => Except.ok t
  | DeferredSqlType.Deferred t => Except.error (AError.UnknownSqlType t.toStr)

/-- AColumn::resolve_type.  The source reads

    fn resolve_type(&mut self, resolver: &TypeResolver) {
        self.sqltype.resolve(resolver);
    }

the Result returned by resolve is discarded and self is never written, so
the column is returned unchanged. -/
def AColumn.resolve_type (c : AColumn) (r : TypeResolver) : AColumn :=
  let _ := c.sqltype.resolve r
  c

/-- impl PartialEq for AColumn: equality is name-only (used by the HashSet). -/
def AColumn.nameEq (a b : AColumn) : Bool := a.name == b.name

/-- struct ATable. -/
structure ATable where
  name : String
  columns : List AColumn
deriving DecidableEq, Repr

/-- impl PartialEq for ATable: equality is name-only (used by the HashSet). -/
def ATable.nameEq (a b : ATable) : Bool := a.name == b.name

/-- HashSet::difference under a custom equivalence: the elements of a with
no equal element in b. -/
def hsDifference (eq : α → α → Bool) (a b : List α) : List α :=
  a.filter (fun x => !(b.any (fun y => eq x y)))

/-- HashSet::intersection under a custom equivalence: the elements of a
(self) that have an equal element in b. -/
def hsIntersection (eq : α → α → Bool) (a b : List α) : List α :=
  a.filter (fun x => b.any (fun y => eq x y))

/-- HashSet::get under a custom equivalence: the stored element equal to
the query, if any. -/
def hsGet (eq : α → α → Bool) (s : List α) (x : α) : Option α :=
  s.find? (fun y => eq y x)

/-- ATable::get_column. -/
def ATable.get_column (t : ATable) (name : String) : Option AColumn :=
  t.columns.find? (fun c => c.name == name)

/-- ATable::get_pk: the first column with the pk flag, or a NoPK error
naming the table. -/
def ATable.get_pk (t : ATable) : Except AError AColumn :=
  match t.columns.find? (fun c => c.is_pk) with
  | some c => Except.ok c
  | none => Except.error (AError.NoPK t.name)

/-- struct ADB: a schema snapshot, a set of tables. -/
structure ADB where
  tables : List ATable
deriving DecidableEq, Repr

/-- ADB::get_table. -/
def ADB.get_table (adb : ADB) (name : String) : Option ATable :=
  adb.tables.find? (fun t => t.name == name)

/-- One iteration of the for-loop body of ADB::resolve_types over the list
of tables, threading the resolver and the changed flag.  For each table:
get_pk()? propagates a NoPK error; if the pk column type is concretely
known it is registered via insert_pk (whose result is assigned to changed,
and whose self-recursion may diverge: none); then every column is mapped
through resolve_type with the current resolver. -/
def resolvePass (ifuel : Nat) :
    TypeResolver → Bool → List ATable → Option (Except AError (TypeResolver × Bool × List ATable))
  | resolver, changed, [] => some (Except.ok (resolver, changed, []))
  | resolver, changed, t :: ts =>
    match t.get_pk with
    | Except.error e => some (Except.error e)
    | Except.ok pkcol =>
      let step : Option (TypeResolver × Bool) :=
        match pkcol.sqltypeResult with
        | Except.ok pktype => TypeResolver.insert_pk ifuel resolver t.name pktype
        | Except.error _ => some (resolver, changed)
      match step with
      | none => none
      | some (resolver2, changed2) =>
        let t2 := { t with columns := t.columns.map (fun c => c.resolve_type resolver2) }
        match resolvePass ifuel resolver2 changed2 ts with
        | none => none
        | some (Except.error e) => some (Except.error e)
        | some (Except.ok (r3, c3, ts3)) => some (Except.ok (r3, c3, t2 :: ts3))

/-- The while-changed loop of ADB::resolve_types: each iteration resets
changed to false and runs one full pass; the loop exits when a pass ends
with changed still false.  lfuel bounds the number of passes. -/
def resolveLoop (ifuel : Nat) :
    Nat → TypeResolver → List ATable → Option (Except AError (List ATable))
  | 0, _, _ => none
  | lfuel + 1, resolver, tables =>
    match resolvePass ifuel resolver false tables with
    | none => none
    | some (Except.error e) => some (Except.error e)
    | some (Except.ok (r2, changed, tables2)) =>
      if changed then resolveLoop ifuel lfuel r2 tables2
      else some (Except.ok tables2)

/-- ADB::resolve_types, with fuel for the insert recursion (ifuel) and for
the while loop (lfuel).  none means the computation did not finish. -/
def ADB.resolve_types (ifuel lfuel : Nat) (adb : ADB) : Option (Except AError ADB) :=
  (resolveLoop ifuel lfuel TypeResolver.new adb.tables).map
    (fun e => e.map (fun ts => { tables := ts }))

/-- enum Operation. -/
inductive Operation
  | AddTable (t : ATable)
  | RemoveTable (name : String)
  | AddColumn (table : String) (col : AColumn)
  | RemoveColumn (table : String) (col : String)
  | ChangeColumn (table : String) (oldCol : AColumn) (newCol : AColumn)
deriving DecidableEq, Repr

/-- diff_table: the column-level diff of two tables with the same name.
The first loop pushes AddColumn for the new-minus-old columns, the second
RemoveColumn for old-minus-new, and the third walks the intersection,
looks the column up in the old table and skips it when col == old_col --
under the name-only PartialEq of AColumn.  (The Rust expect on the lookup
cannot fire: every intersection element has a name-equal in old.) -/
def diff_table (old1 new1 : ATable) : List Operation :=
  ((hsDifference AColumn.nameEq new1.columns old1.columns).map
    (fun added => Operation.AddColumn new1.name added))
  ++ ((hsDifference AColumn.nameEq old1.columns new1.columns).map
    (fun removed => Operation.RemoveColumn old1.name removed.name))
  ++ ((hsIntersection AColumn.nameEq new1.columns old1.columns).filterMap
    (fun col =>
      match hsGet AColumn.nameEq old1.columns col with
      | none => none
      | some old_col =>
        if AColumn.nameEq col old_col then none
        else some (Operation.ChangeColumn new1.name old_col col)))

/-- The body of the intersection loop of diff: look the table up in old
(the Rust expect cannot fire on intersection elements) and run diff_table
against it. -/
def diffTableCols (old1 : ADB) (table : ATable) : List Operation :=
  match hsGet ATable.nameEq old1.tables table with
  | none => []
  | some old_t => diff_table old_t table

/-- diff: AddTable for new-minus-old tables, then RemoveTable for
old-minus-new, then the per-table column diffs over the intersection. -/
def diff (old1 new1 : ADB) : List Operation :=
  ((hsDifference ATable.nameEq new1.tables old1.tables).map
    (fun added => Operation.AddTable added))
  ++ ((hsDifference ATable.nameEq old1.tables new1.tables).map
    (fun removed => Operation.RemoveTable removed.name))
  ++ ((hsIntersection ATable.nameEq new1.tables old1.tables).map (diffTableCols old1)).flatten

/-- True for the whole-table operations AddTable and RemoveTable. -/
def Operation.isTableOp : Operation → Bool
  | Operation.AddTable _ => true
  | Operation.RemoveTable _ => true
  | _ => false

/-- True exactly for ChangeColumn operations. -/
def Operation.isChange : Operation → Bool
  | Operation.ChangeColumn _ _ _ => true
  | _ => false

/-- True for a column-level operation that names the given table. -/
def Operation.isColOpOn (tn : String) : Operation → Bool
  | Operation.AddColumn t _ => t == tn
  | Operation.RemoveColumn t _ => t == tn
  | Operation.ChangeColumn t _ _ => t == tn
  | _ => false

/-- The table added by an AddTable operation, if any. -/
def Operation.addTableOf : Operation → Option ATable
  | Operation.AddTable t => some t
  | _ => none

/-- The table name removed by a RemoveTable operation, if any. -/
def Operation.removeTableOf : Operation → Option String
  | Operation.RemoveTable n => some n
  | _ => none

/-- The column added to the given table by an AddColumn operation, if any. -/
def Operation.addColumnOn (tn : String) : Operation → Option AColumn
  | Operation.AddColumn t c => if t == tn then some c else none
  | _ => none

/-- The column name removed from the given table by a RemoveColumn
operation, if any. -/
def Operation.removeColumnOn (tn : String) : Operation → Option String
  | Operation.RemoveColumn t c => if t == tn then some c else none
  | _ => none

lemma insert_absent_none (fuel : Nat) (r : TypeResolver) (key : TypeKey) (ty : SqlType)
    (h : r.contains_key key = false) :
    TypeResolver.insert fuel r key ty = none := by
  induction fuel with
  | zero => rfl
  | succ n ih => simp [TypeResolver.insert, h, ih]

lemma insert_present_found (fuel : Nat) (r : TypeResolver) (key : TypeKey) (ty : SqlType)
    (h : r.contains_key key = true) :
    TypeResolver.insert (fuel + 1) r key ty = some (r, false) := by
  simp [TypeResolver.insert, h]

lemma hsDifference_self (eq : α → α → Bool) (hrefl : ∀ x, eq x x = true) (l : List α) :
    hsDifference eq l l = [] := by
  apply List.filter_eq_nil_iff.mpr
  intro a ha
  simp only [Bool.not_eq_true', Bool.not_eq_false, List.any_eq_true]
  exact ⟨a, ha, hrefl a⟩

lemma hsIntersection_self (eq : α → α → Bool) (hrefl : ∀ x, eq x x = true) (l : List α) :
    hsIntersection eq l l = l := by
  apply List.filter_eq_self.mpr
  intro a ha
  simp only [List.any_eq_true]
  exact ⟨a, ha, hrefl a⟩

lemma find?_nameEq_nodup (l : List ATable) (t0 tq : ATable)
    (hn : (l.map ATable.name).Nodup) (ht : t0 ∈ l) (hs : t0.name = tq.name) :
    l.find? (fun y => ATable.nameEq y tq) = some t0 := by
  induction l with
  | nil => cases ht
  | cons a l' ih =>
    simp only [List.map_cons, List.nodup_cons] at hn
    by_cases hpos : ATable.nameEq a tq = true
    · have haq : a.name = tq.name := by
        simpa [ATable.nameEq] using hpos
      have ha0 : a = t0 := by
        rcases List.mem_cons.mp ht with h1 | h1
        · exact h1.symm
        · exact absurd (haq ▸ hs ▸ List.mem_map_of_mem ATable.name h1) hn.1
      subst ha0
      simp [List.find?, hpos]
    · have hneg : ATable.nameEq a tq = false := by
        simpa using hpos
      have ht' : t0 ∈ l' := by
        rcases List.mem_cons.mp ht with h1 | h1
        · exact absurd (by simp [ATable.nameEq, h1 ▸ hs]) hpos
        · exact h1
      simp only [List.find?, hneg]
      exact ih hn.2 ht'

lemma diff_table_change_nil (old1 new1 : ATable) :
    ((hsIntersection AColumn.nameEq new1.columns old1.columns).filterMap
      (fun col =>
        match hsGet AColumn.nameEq old1.columns col with
        | none => none
        | some old_col =>
          if AColumn.nameEq col old_col then none
          else some (Operation.ChangeColumn new1.name old_col col))) = [] := by
  apply List.filterMap_eq_nil_iff.mpr
  intro col _
  cases hg : hsGet AColumn.nameEq old1.columns col with
  | none => simp
  | some old_col =>
    have hg' : old1.columns.find? (fun y => AColumn.nameEq y col) = some old_col := hg
    have h1 : AColumn.nameEq old_col col = true := by
      have := List.find?_some hg'
      simpa using this
    have h2 : AColumn.nameEq col old_col = true := by
      simp only [AColumn.nameEq, beq_iff_eq] at h1 ⊢
      exact h1.symm
    simp [h2]

lemma diff_table_eq_add_remove (old1 new1 : ATable) :
    diff_table old1 new1 =
      ((hsDifference AColumn.nameEq new1.columns old1.columns).map
        (fun added => Operation.AddColumn new1.name added))
      ++ ((hsDifference AColumn.nameEq old1.columns new1.columns).map
        (fun removed => Operation.RemoveColumn old1.name removed.name)) := by
  unfold diff_table
  rw [diff_table_change_nil, List.append_nil]

lemma diff_table_self (t : ATable) : diff_table t t = [] := by
  rw [diff_table_eq_add_remove]
  rw [hsDifference_self AColumn.nameEq (fun c => by simp [AColumn.nameEq]) t.columns]
  simp

lemma diff_table_all_colOps (old1 new1 : ATable) (h : old1.name = new1.name) :
    (diff_table old1 new1).all (Operation.isColOpOn new1.name) = true := by
  rw [diff_table_eq_add_remove]
  apply List.all_eq_true.mpr
  intro op hop
  rcases List.mem_append.mp hop with h1 | h1
  · rcases List.mem_map.mp h1 with ⟨c, _, rfl⟩
    simp [Operation.isColOpOn]
  · rcases List.mem_map.mp h1 with ⟨c, _, rfl⟩
    simp [Operation.isColOpOn, h]

lemma diffTableCols_all_colOps (old1 : ADB) (t : ATable) :
    (diffTableCols old1 t).all (Operation.isColOpOn t.name) = true := by
  unfold diffTableCols
  cases hg : hsGet ATable.nameEq old1.tables t with
  | none => simp
  | some old_t =>
    have hg' : old1.tables.find? (fun y => ATable.nameEq y t) = some old_t := hg
    have h1 : ATable.nameEq old_t t = true := by
      have := List.find?_some hg'
      simpa using this
    have h2 : old_t.name = t.name := by
      simpa [ATable.nameEq] using h1
    exact diff_table_all_colOps old_t t h2

lemma colOp_addTableOf_none {tn : String} {op : Operation}
    (h : Operation.isColOpOn tn op = true) : op.addTableOf = none := by
  cases op <;> simp_all [Operation.isColOpOn, Operation.addTableOf]

lemma colOp_removeTableOf_none {tn : String} {op : Operation}
    (h : Operation.isColOpOn tn op = true) : op.removeTableOf = none := by
  cases op <;> simp_all [Operation.isColOpOn, Operation.removeTableOf]

lemma colOp_addColumnOn_none {tn tn2 : String} {op : Operation}
    (h : Operation.isColOpOn tn op = true) (hne : tn ≠ tn2) :
    Operation.addColumnOn tn2 op = none := by
  cases op with
  | AddTable t => rfl
  | RemoveTable n => rfl
  | AddColumn t c =>
    have ht : t = tn := by simpa [Operation.isColOpOn] using h
    subst ht
    simp [Operation.addColumnOn, hne]
  | RemoveColumn t c => rfl
  | ChangeColumn t a b => rfl

lemma colOp_removeColumnOn_none {tn tn2 : String} {op : Operation}
    (h : Operation.isColOpOn tn op = true) (hne : tn ≠ tn2) :
    Operation.removeColumnOn tn2 op = none := by
  cases op with
  | AddTable t => rfl
  | RemoveTable n => rfl
  | AddColumn t c => rfl
  | RemoveColumn t c =>
    have ht : t = tn := by simpa [Operation.isColOpOn] using h
    subst ht
    simp [Operation.removeColumnOn, hne]
  | ChangeColumn t a b => rfl

lemma filterMap_flatten_nil {β : Type} (f : Operation → Option β) (ll : List (List Operation))
    (h : ∀ x ∈ ll, x.filterMap f = []) : (ll.flatten).filterMap f = [] := by
  induction ll with
  | nil => rfl
  | cons x xs ih =>
    rw [List.flatten_cons, List.filterMap_append, h x (List.mem_cons_self x xs),
      ih (fun y hy => h y (List.mem_cons_of_mem x hy))]
    rfl

lemma filterMap_flatten_eq_single {β : Type} (f : Operation → Option β)
    (g : ATable → List Operation) (l : List ATable) (t : ATable)
    (ht : t ∈ l) (hn : (l.map ATable.name).Nodup)
    (hothers : ∀ u ∈ l, u.name ≠ t.name → (g u).filterMap f = []) :
    ((l.map g).flatten).filterMap f = (g t).filterMap f := by
  induction l with
  | nil => cases ht
  | cons a l' ih =>
    simp only [List.map_cons, List.flatten_cons, List.filterMap_append]
    simp only [List.map_cons, List.nodup_cons] at hn
    by_cases haname : a.name = t.name
    · have hat : a = t := by
        rcases List.mem_cons.mp ht with h1 | h1
        · exact h1.symm
        · exact absurd (haname ▸ List.mem_map_of_mem ATable.name h1) hn.1
      subst hat
      have hrest : ((l'.map g).flatten).filterMap f = [] := by
        apply filterMap_flatten_nil
        intro x hx
        rcases List.mem_map.mp hx with ⟨u, hu, hgu⟩
        have hune : u.name ≠ a.name := by
          intro hcontra
          exact hn.1 (hcontra ▸ List.mem_map_of_mem ATable.name hu)
        exact hgu ▸ hothers u (List.mem_cons_of_mem a hu) hune
      rw [hrest, List.append_nil]
    · have ht' : t ∈ l' := by
        rcases List.mem_cons.mp ht with h1 | h1
        · exact absurd (h1 ▸ rfl) haname
        · exact h1
      rw [hothers a (List.mem_cons_self a l') haname, List.nil_append]
      exact ih ht' hn.2 (fun u hu hune => hothers u (List.mem_cons_of_mem a hu) hune)

/-- Column id: known int, primary key. -/
def idCol : AColumn :=
  { name := "id", sqltype := DeferredSqlType.Known SqlType.Int,
    nullable := false, pk := false, default := none }

/-- Column id with the pk flag set. -/
def idPkCol : AColumn := { idCol with pk := true }

/-- Column name: known text. -/
def nameCol : AColumn :=
  { name := "name", sqltype := DeferredSqlType.Known SqlType.Text,
    nullable := false, pk := false, default := none }

/-- Column email: known text. -/
def emailCol : AColumn :=
  { name := "email", sqltype := DeferredSqlType.Known SqlType.Text,
    nullable := false, pk := false, default := none }

/-- Scenario C old column: age, nullable. -/
def ageNullableCol : AColumn :=
  { name := "age", sqltype := DeferredSqlType.Known SqlType.Int,
    nullable := true, pk := false, default := none }

/-- Scenario C new column: age, non-nullable, otherwise identical. -/
def ageNonNullCol : AColumn := { ageNullableCol with nullable := false }

/-- Scenario C old table. -/
def tOldC : ATable := { name := "t", columns := [idPkCol, ageNullableCol] }

/-- Scenario C new table. -/
def tNewC : ATable := { name := "t", columns := [idPkCol, ageNonNullCol] }

/-- Scenario A old users table: users(id pk int, name text). -/
def usersOldT : ATable := { name := "users", columns := [idPkCol, nameCol] }

/-- Scenario A new users table: users(id pk int, name text, email text). -/
def usersNewT : ATable := { name := "users", columns := [idPkCol, nameCol, emailCol] }

/-- Table posts(id pk int). -/
def postsT : ATable := { name := "posts", columns := [idPkCol] }

/-- A table with no primary-key column. -/
def bTable : ATable :=
  { name := "b",
    columns := [{ name := "x", sqltype := DeferredSqlType.Known SqlType.Text,
                  nullable := false, pk := false, default := none }] }

/-- Scenario D comments table: its pk is known, its owner column's type is
deferred to the primary-key type of posts. -/
def commentsT : ATable :=
  { name := "comments",
    columns := [idPkCol,
      { name := "owner", sqltype := DeferredSqlType.Deferred (TypeKey.PK "posts"),
        nullable := false, pk := false, default := none }] }

/-- A table whose pk column's own type is still deferred. -/
def cDeferredT : ATable :=
  { name := "c",
    columns := [{ name := "id", sqltype := DeferredSqlType.Deferred (TypeKey.PK "posts"),
                  nullable := false, pk := true, default := none }] }

/-- Snapshot with the single table posts. -/
def dbPosts : ADB := { tables := [postsT] }

/-- Scenario D snapshot. -/
def dbScenarioD : ADB := { tables := [postsT, commentsT] }

/-- Snapshot with the single pk-less table b. -/
def dbNoPk : ADB := { tables := [bTable] }

/-- Snapshot whose first table has a known pk type and whose second
table has no pk column at all. -/
def dbKnownThenNoPk : ADB := { tables := [postsT, bTable] }

/-- Snapshot with a single table whose pk type is still deferred. -/
def dbDeferredPk : ADB := { tables := [cDeferredT] }

/-- A resolver already holding the pk key of posts. -/
def rPostsInt : TypeResolver := { types := [(TypeKey.PK "posts", SqlType.Int)] }

lemma resolveLoop_none_head_known (ifuel lfuel : Nat) (t : ATable) (ts : List ATable)
    (pkcol : AColumn) (hpk : t.get_pk = Except.ok pkcol) (ty : SqlType)
    (hty : pkcol.sqltypeResult = Except.ok ty) :
    resolveLoop ifuel lfuel TypeResolver.new (t :: ts) = none := by
  cases lfuel with
  | zero => rfl
  | succ n =>
    have hin : TypeResolver.insert_pk ifuel TypeResolver.new t.name ty = none := by
      unfold TypeResolver.insert_pk
      exact insert_absent_none ifuel _ _ _ rfl
    simp [resolveLoop, resolvePass, hpk, hty, hin]

lemma resolve_types_none_head_known (ifuel lfuel : Nat) (adb : ADB) (t : ATable)
    (ts : List ATable) (htab : adb.tables = t :: ts)
    (pkcol : AColumn) (hpk : t.get_pk = Except.ok pkcol) (ty : SqlType)
    (hty : pkcol.sqltypeResult = Except.ok ty) :
    ADB.resolve_types ifuel lfuel adb = none := by
  unfold ADB.resolve_types
  rw [htab, resolveLoop_none_head_known ifuel lfuel t ts pkcol hpk ty hty]
  rfl

/-- C1: the claim that diff compares name-matched columns structurally
(type, nullability, PK flag, default) and emits ChangeColumn whenever a
field differs is false of the code: diff_table skips a matched column when
col == old_col under the name-only PartialEq of AColumn, which always
holds for intersection elements, so a ChangeColumn is never emitted.  On
the spec's Scenario C (column age changes from nullable to non-nullable,
all else equal) diff returns the empty list, and in general the filter of
ChangeColumn operations out of any diff_table result is empty. -/
theorem c1_change_column_never_emitted :
    diff { tables := [tOldC] } { tables := [tNewC] } = []
    ∧ ∀ old1 new1 : ATable, (diff_table old1 new1).filter Operation.isChange = [] := by
  constructor
  · rfl
  · intro old1 new1
    rw [diff_table_eq_add_remove, List.filter_append]
    have h1 : ∀ (tn : String) (l : List AColumn),
        (l.map (fun c => Operation.AddColumn tn c)).filter Operation.isChange = [] := by
      intro tn l
      apply List.filter_eq_nil_iff.mpr
      intro op hop
      rcases List.mem_map.mp hop with ⟨c, _, rfl⟩
      simp [Operation.isChange]
    have h2 : ∀ (tn : String) (l : List AColumn),
        (l.map (fun c => Operation.RemoveColumn tn c.name)).filter Operation.isChange = [] := by
      intro tn l
      apply List.filter_eq_nil_iff.mpr
      intro op hop
      rcases List.mem_map.mp hop with ⟨c, _, rfl⟩
      simp [Operation.isChange]
    rw [h1, h2]
    rfl

/-- C2: the claim that TypeResolver::insert terminates and returns true
iff the key was absent is false of the code: on the absent-key path the
function re-invokes itself with unchanged state instead of inserting, so
it never terminates (no fuel suffices); on the present-key path it does
terminate, leaving the resolver unchanged and returning false. -/
theorem c2_insert_diverges_on_absent_key :
    (∀ fuel : Nat,
      TypeResolver.insert fuel TypeResolver.new (TypeKey.PK "posts") SqlType.Int = none)
    ∧ (∀ fuel : Nat,
      TypeResolver.insert (fuel + 1) rPostsInt (TypeKey.PK "posts") SqlType.Int
        = some (rPostsInt, false)) := by
  constructor
  · intro fuel
    exact insert_absent_none fuel _ _ _ rfl
  · intro fuel
    exact insert_present_found fuel _ _ _ rfl

/-- C3: the claim that resolve_types terminates for every snapshot is
false of the code: on a snapshot with a single table posts whose pk type
is concretely known, the first pass calls TypeResolver::insert on an
absent key, which re-invokes itself forever; no insert fuel and no pass
fuel make the computation finish. -/
theorem c3_resolve_types_diverges :
    ∀ ifuel lfuel : Nat, ADB.resolve_types ifuel lfuel dbPosts = none := by
  intro ifuel lfuel
  exact resolve_types_none_head_known ifuel lfuel dbPosts postsT [] rfl idPkCol rfl
    SqlType.Int rfl

/-- C4: the claim that resolve_types replaces a resolvable deferred column
type in place is false of the code: AColumn::resolve_type computes
self.sqltype.resolve(resolver) and discards the Result, so every column is
returned unchanged; moreover on the spec's Scenario D (comments has a
column deferred to the pk type of posts, whose pk is a known int) the
resolve_types computation never even finishes, because registering the pk
of posts hits the self-recursing insert. -/
theorem c4_resolve_type_discards_result :
    (∀ (c : AColumn) (r : TypeResolver), c.resolve_type r = c)
    ∧ (∀ ifuel lfuel : Nat, ADB.resolve_types ifuel lfuel dbScenarioD = none) := by
  constructor
  · intro c r
    rfl
  · intro ifuel lfuel
    exact resolve_types_none_head_known ifuel lfuel dbScenarioD postsT [commentsT] rfl
      idPkCol rfl SqlType.Int rfl

/-- C9: ATable::get_pk returns Ok with a pk-flagged column out of the
table's columns iff some column carries the pk flag, and otherwise fails
with a NoPK error naming the table. -/
theorem c9_get_pk_ok_iff_pk_flag (t : ATable) :
    (t.columns.any AColumn.is_pk = true →
      ∃ c, t.get_pk = Except.ok c ∧ c.is_pk = true ∧ c ∈ t.columns)
    ∧ (t.columns.any AColumn.is_pk = false →
      t.get_pk = Except.error (AError.NoPK t.name)) := by
  constructor
  · intro hany
    rcases List.any_eq_true.mp hany with ⟨c0, hc0, hpk0⟩
    cases hfind : t.columns.find? (fun c => c.is_pk) with
    | none =>
      have := List.find?_eq_none.mp hfind c0 hc0
      exact absurd hpk0 this
    | some c =>
      refine ⟨c, ?_, List.find?_some hfind, List.mem_of_find?_eq_some hfind⟩
      unfold ATable.get_pk
      rw [hfind]
  · intro hnone
    have hfind : t.columns.find? (fun c => c.is_pk) = none := by
      apply List.find?_eq_none.mpr
      intro c hc
      have := List.any_eq_false.mp hnone c hc
      simpa using this
    unfold ATable.get_pk
    rw [hfind]

/-- C9 witness: get_pk succeeds on posts (which has a pk column) and
fails with NoPK "b" on the pk-less table b. -/
theorem c9_get_pk_witness :
    (∃ c, postsT.get_pk = Except.ok c ∧ c.is_pk = true ∧ c ∈ postsT.columns)
    ∧ bTable.get_pk = Except.error (AError.NoPK "b") :=
  ⟨(c9_get_pk_ok_iff_pk_flag postsT).1 (by decide),
   (c9_get_pk_ok_iff_pk_flag bTable).2 (by decide)⟩

/-- C10: the claim that resolve_types reports the NoPK error whenever some
table lacks a pk column is only partially true of the code.  If the
pk-less table is reached before any table with a concretely known pk type,
the error is returned (first conjunct), and a table whose pk type is
merely deferred is indeed skipped rather than an error (third conjunct);
but if a table with a known pk type precedes the pk-less table, the
self-recursing insert runs forever and the error is never reported
(second conjunct). -/
theorem c10_no_pk_error_not_always_reached :
    (∀ ifuel lfuel : Nat,
      ADB.resolve_types ifuel (lfuel + 1) dbNoPk = some (Except.error (AError.NoPK "b")))
    ∧ (∀ ifuel lfuel : Nat, ADB.resolve_types ifuel lfuel dbKnownThenNoPk = none)
    ∧ (∀ ifuel lfuel : Nat,
      ADB.resolve_types ifuel (lfuel + 1) dbDeferredPk = some (Except.ok dbDeferredPk)) := by
  refine ⟨?_, ?_, ?_⟩
  · intro ifuel lfuel
    rfl
  · intro ifuel lfuel
    exact resolve_types_none_head_known ifuel lfuel dbKnownThenNoPk postsT [bTable] rfl
      idPkCol rfl SqlType.Int rfl
  · intro ifuel lfuel
    rfl

/-- C5: diff of a snapshot with itself is the empty operation sequence,
for any snapshot satisfying the container invariant that table names are
unique. -/
theorem c5_diff_self_empty (S : ADB) (h : (S.tables.map ATable.name).Nodup) :
    diff S S = [] := by
  unfold diff
  rw [hsDifference_self ATable.nameEq (fun t => by simp [ATable.nameEq]) S.tables]
  rw [hsIntersection_self ATable.nameEq (fun t => by simp [ATable.nameEq]) S.tables]
  simp only [List.map_nil, List.nil_append]
  have hblocks : ∀ x ∈ S.tables.map (diffTableCols S), x = [] := by
    intro x hx
    rcases List.mem_map.mp hx with ⟨t, ht, rfl⟩
    have hfind : hsGet ATable.nameEq S.tables t = some t :=
      find?_nameEq_nodup S.tables t t h ht rfl
    simp [diffTableCols, hfind, diff_table_self]
  rw [List.flatten_eq_nil_iff.mpr hblocks]

/-- C5 witness: diff of a concrete two-table snapshot with itself is
empty. -/
theorem c5_diff_self_witness : diff dbScenarioD dbScenarioD = [] :=
  c5_diff_self_empty dbScenarioD (by decide)

/-- C6: every diff is the whole-table segment (only AddTable/RemoveTable
operations) followed by the per-table column blocks; each block contains
only column operations naming its own table, and under the snapshot
invariant that new table names are unique the blocks belong to pairwise
distinct tables, so one table's column operations are contiguous and
never interleaved with another table's. -/
theorem c6_table_ops_precede_col_ops (old1 new1 : ADB)
    (hnew : (new1.tables.map ATable.name).Nodup) :
    diff old1 new1 =
      (((hsDifference ATable.nameEq new1.tables old1.tables).map
          (fun added => Operation.AddTable added))
        ++ ((hsDifference ATable.nameEq old1.tables new1.tables).map
          (fun removed => Operation.RemoveTable removed.name)))
      ++ ((hsIntersection ATable.nameEq new1.tables old1.tables).map
          (diffTableCols old1)).flatten
    ∧ (((hsDifference ATable.nameEq new1.tables old1.tables).map
          (fun added => Operation.AddTable added))
        ++ ((hsDifference ATable.nameEq old1.tables new1.tables).map
          (fun removed => Operation.RemoveTable removed.name))).all Operation.isTableOp = true
    ∧ ((hsIntersection ATable.nameEq new1.tables old1.tables).all
        (fun t => (diffTableCols old1 t).all (Operation.isColOpOn t.name))) = true
    ∧ ((hsIntersection ATable.nameEq new1.tables old1.tables).map ATable.name).Nodup := by
  refine ⟨?_, ?_, ?_, ?_⟩
  · unfold diff
    rw [List.append_assoc]
  · apply List.all_eq_true.mpr
    intro op hop
    rcases List.mem_append.mp hop with h1 | h1 <;>
      rcases List.mem_map.mp h1 with ⟨t, _, rfl⟩ <;> rfl
  · apply List.all_eq_true.mpr
    intro t _
    exact diffTableCols_all_colOps old1 t
  · exact (List.Sublist.map ATable.name (List.filter_sublist new1.tables)).nodup hnew

/-- C6 witness: the grouping contract instantiated at a concrete pair of
snapshots (old has posts and the pk-less b, new has posts and comments). -/
theorem c6_table_ops_witness :
    diff dbKnownThenNoPk dbScenarioD =
      (((hsDifference ATable.nameEq dbScenarioD.tables dbKnownThenNoPk.tables).map
          (fun added => Operation.AddTable added))
        ++ ((hsDifference ATable.nameEq dbKnownThenNoPk.tables dbScenarioD.tables).map
          (fun removed => Operation.RemoveTable removed.name)))
      ++ ((hsIntersection ATable.nameEq dbScenarioD.tables dbKnownThenNoPk.tables).map
          (diffTableCols dbKnownThenNoPk)).flatten
    ∧ (((hsDifference ATable.nameEq dbScenarioD.tables dbKnownThenNoPk.tables).map
          (fun added => Operation.AddTable added))
        ++ ((hsDifference ATable.nameEq dbKnownThenNoPk.tables dbScenarioD.tables).map
          (fun removed => Operation.RemoveTable removed.name))).all Operation.isTableOp = true
    ∧ ((hsIntersection ATable.nameEq dbScenarioD.tables dbKnownThenNoPk.tables).all
        (fun t => (diffTableCols dbKnownThenNoPk t).all (Operation.isColOpOn t.name))) = true
    ∧ ((hsIntersection ATable.nameEq dbScenarioD.tables dbKnownThenNoPk.tables).map
        ATable.name).Nodup :=
  c6_table_ops_precede_col_ops dbKnownThenNoPk dbScenarioD (by decide)

lemma colBlocks_filterMap_nil {β : Type} (f : Operation → Option β) (old1 : ADB)
    (l : List ATable)
    (hf : ∀ (tn : String) (op : Operation), Operation.isColOpOn tn op = true → f op = none) :
    ((l.map (diffTableCols old1)).flatten).filterMap f = [] := by
  apply filterMap_flatten_nil
  intro x hx
  rcases List.mem_map.mp hx with ⟨t, _, rfl⟩
  apply List.filterMap_eq_nil_iff.mpr
  intro op hop
  exact hf t.name op (List.all_eq_true.mp (diffTableCols_all_colOps old1 t) op hop)

lemma filterMap_addTableOf_mapAdd (l : List ATable) :
    (l.map (fun added => Operation.AddTable added)).filterMap Operation.addTableOf = l := by
  induction l with
  | nil => rfl
  | cons a l ih => simp [List.filterMap_cons, Operation.addTableOf, ih]

lemma filterMap_addTableOf_mapRemove (l : List ATable) :
    (l.map (fun removed => Operation.RemoveTable removed.name)).filterMap
      Operation.addTableOf = [] := by
  induction l with
  | nil => rfl
  | cons a l ih => simp [List.filterMap_cons, Operation.addTableOf, ih]

lemma filterMap_removeTableOf_mapAdd (l : List ATable) :
    (l.map (fun added => Operation.AddTable added)).filterMap Operation.removeTableOf = [] := by
  induction l with
  | nil => rfl
  | cons a l ih => simp [List.filterMap_cons, Operation.removeTableOf, ih]

lemma filterMap_removeTableOf_mapRemove (l : List ATable) :
    (l.map (fun removed => Operation.RemoveTable removed.name)).filterMap
      Operation.removeTableOf = l.map ATable.name := by
  induction l with
  | nil => rfl
  | cons a l ih => simp [List.filterMap_cons, Operation.removeTableOf, ih]

/-- C7: the AddTable operations of a diff are exactly the tables of new
with no name-equal table in old (carrying the complete new definition),
and the RemoveTable operations are exactly the names of the tables of old
with no name-equal table in new; under the snapshot invariant of unique
table names the emitted names are pairwise distinct, so there is exactly
one such operation per added or removed table name. -/
theorem c7_whole_table_ops (old1 new1 : ADB)
    (hold : (old1.tables.map ATable.name).Nodup)
    (hnew : (new1.tables.map ATable.name).Nodup) :
    (diff old1 new1).filterMap Operation.addTableOf
        = hsDifference ATable.nameEq new1.tables old1.tables
    ∧ (diff old1 new1).filterMap Operation.removeTableOf
        = (hsDifference ATable.nameEq old1.tables new1.tables).map ATable.name
    ∧ ((hsDifference ATable.nameEq new1.tables old1.tables).map ATable.name).Nodup
    ∧ ((hsDifference ATable.nameEq old1.tables new1.tables).map ATable.name).Nodup := by
  refine ⟨?_, ?_, ?_, ?_⟩
  · unfold diff
    rw [List.filterMap_append, List.filterMap_append]
    rw [colBlocks_filterMap_nil Operation.addTableOf old1 _
      (fun tn op h => colOp_addTableOf_none h)]
    rw [filterMap_addTableOf_mapAdd, filterMap_addTableOf_mapRemove]
    simp
  · unfold diff
    rw [List.filterMap_append, List.filterMap_append]
    rw [colBlocks_filterMap_nil Operation.removeTableOf old1 _
      (fun tn op h => colOp_removeTableOf_none h)]
    rw [filterMap_removeTableOf_mapAdd, filterMap_removeTableOf_mapRemove]
    simp
  · exact (List.Sublist.map ATable.name (List.filter_sublist new1.tables)).nodup hnew
  · exact (List.Sublist.map ATable.name (List.filter_sublist old1.tables)).nodup hold

/-- Scenario B old snapshot: users and posts. -/
def dbOldB : ADB := { tables := [usersOldT, postsT] }

/-- Scenario B new snapshot: users only, unchanged. -/
def dbNewB : ADB := { tables := [usersOldT] }

/-- C7 witness: Scenario B.  The general characterisation applied to the
concrete snapshots, and the concrete diff is exactly one
RemoveTable "posts" with no column operations. -/
theorem c7_whole_table_ops_witness :
    ((diff dbOldB dbNewB).filterMap Operation.addTableOf
        = hsDifference ATable.nameEq dbNewB.tables dbOldB.tables
      ∧ (diff dbOldB dbNewB).filterMap Operation.removeTableOf
        = (hsDifference ATable.nameEq dbOldB.tables dbNewB.tables).map ATable.name
      ∧ ((hsDifference ATable.nameEq dbNewB.tables dbOldB.tables).map ATable.name).Nodup
      ∧ ((hsDifference ATable.nameEq dbOldB.tables dbNewB.tables).map ATable.name).Nodup)
    ∧ diff dbOldB dbNewB = [Operation.RemoveTable "posts"] :=
  ⟨c7_whole_table_ops dbOldB dbNewB (by decide) (by decide), by decide⟩

lemma filterMap_addColumnOn_mapAddCol (tn : String) (l : List AColumn) :
    (l.map (fun added => Operation.AddColumn tn added)).filterMap
      (Operation.addColumnOn tn) = l := by
  induction l with
  | nil => rfl
  | cons a l ih => simp [List.filterMap_cons, Operation.addColumnOn, ih]

lemma filterMap_addColumnOn_mapRemoveCol (tn tn2 : String) (l : List AColumn) :
    (l.map (fun removed => Operation.RemoveColumn tn2 removed.name)).filterMap
      (Operation.addColumnOn tn) = [] := by
  induction l with
  | nil => rfl
  | cons a l ih => simp [List.filterMap_cons, Operation.addColumnOn, ih]

lemma filterMap_removeColumnOn_mapAddCol (tn tn2 : String) (l : List AColumn) :
    (l.map (fun added => Operation.AddColumn tn2 added)).filterMap
      (Operation.removeColumnOn tn) = [] := by
  induction l with
  | nil => rfl
  | cons a l ih => simp [List.filterMap_cons, Operation.removeColumnOn, ih]

lemma filterMap_removeColumnOn_mapRemoveCol (tn tn2 : String) (h : tn2 = tn)
    (l : List AColumn) :
    (l.map (fun removed => Operation.RemoveColumn tn2 removed.name)).filterMap
      (Operation.removeColumnOn tn) = l.map AColumn.name := by
  subst h
  induction l with
  | nil => rfl
  | cons a l ih => simp [List.filterMap_cons, Operation.removeColumnOn, ih]

lemma filterMap_addColumnOn_mapAddTable (tn : String) (l : List ATable) :
    (l.map (fun added => Operation.AddTable added)).filterMap
      (Operation.addColumnOn tn) = [] := by
  induction l with
  | nil => rfl
  | cons a l ih => simp [List.filterMap_cons, Operation.addColumnOn, ih]

lemma filterMap_addColumnOn_mapRemoveTable (tn : String) (l : List ATable) :
    (l.map (fun removed => Operation.RemoveTable removed.name)).filterMap
      (Operation.addColumnOn tn) = [] := by
  induction l with
  | nil => rfl
  | cons a l ih => simp [List.filterMap_cons, Operation.addColumnOn, ih]

lemma filterMap_removeColumnOn_mapAddTable (tn : String) (l : List ATable) :
    (l.map (fun added => Operation.AddTable added)).filterMap
      (Operation.removeColumnOn tn) = [] := by
  induction l with
  | nil => rfl
  | cons a l ih => simp [List.filterMap_cons, Operation.removeColumnOn, ih]

lemma filterMap_removeColumnOn_mapRemoveTable (tn : String) (l : List ATable) :
    (l.map (fun removed => Operation.RemoveTable removed.name)).filterMap
      (Operation.removeColumnOn tn) = [] := by
  induction l with
  | nil => rfl
  | cons a l ih => simp [List.filterMap_cons, Operation.removeColumnOn, ih]

lemma diffTableCols_filterMap_addCol (old1 : ADB) (t_old t_new : ATable)
    (hold : (old1.tables.map ATable.name).Nodup) (hto : t_old ∈ old1.tables)
    (hname : t_old.name = t_new.name) :
    (diffTableCols old1 t_new).filterMap (Operation.addColumnOn t_new.name)
      = hsDifference AColumn.nameEq t_new.columns t_old.columns := by
  have hfind : hsGet ATable.nameEq old1.tables t_new = some t_old :=
    find?_nameEq_nodup old1.tables t_old t_new hold hto hname
  simp only [diffTableCols, hfind]
  rw [diff_table_eq_add_remove, List.filterMap_append]
  rw [filterMap_addColumnOn_mapAddCol, filterMap_addColumnOn_mapRemoveCol]
  simp

lemma diffTableCols_filterMap_removeCol (old1 : ADB) (t_old t_new : ATable)
    (hold : (old1.tables.map ATable.name).Nodup) (hto : t_old ∈ old1.tables)
    (hname : t_old.name = t_new.name) :
    (diffTableCols old1 t_new).filterMap (Operation.removeColumnOn t_new.name)
      = (hsDifference AColumn.nameEq t_old.columns t_new.columns).map AColumn.name := by
  have hfind : hsGet ATable.nameEq old1.tables t_new = some t_old :=
    find?_nameEq_nodup old1.tables t_old t_new hold hto hname
  simp only [diffTableCols, hfind]
  rw [diff_table_eq_add_remove, List.filterMap_append]
  rw [filterMap_removeColumnOn_mapAddCol, filterMap_removeColumnOn_mapRemoveCol _ _ hname]
  simp

/-- C8: for a pair of name-matched tables in the two snapshots (under the
snapshot invariant of unique table names), the AddColumn operations of the
diff that name that table are exactly the new table's columns with no
name-equal column in the old table, carrying the full definitions, and
the RemoveColumn operations naming that table are exactly the names of
the old table's columns with no name-equal column in the new table. -/
theorem c8_per_table_column_ops (old1 new1 : ADB)
    (hold : (old1.tables.map ATable.name).Nodup)
    (hnew : (new1.tables.map ATable.name).Nodup)
    (t_old t_new : ATable) (hto : t_old ∈ old1.tables) (htn : t_new ∈ new1.tables)
    (hname : t_old.name = t_new.name) :
    (diff old1 new1).filterMap (Operation.addColumnOn t_new.name)
        = hsDifference AColumn.nameEq t_new.columns t_old.columns
    ∧ (diff old1 new1).filterMap (Operation.removeColumnOn t_new.name)
        = (hsDifference AColumn.nameEq t_old.columns t_new.columns).map AColumn.name := by
  have hinter : t_new ∈ hsIntersection ATable.nameEq new1.tables old1.tables := by
    apply List.mem_filter.mpr
    refine ⟨htn, ?_⟩
    apply List.any_eq_true.mpr
    exact ⟨t_old, hto, by simp [ATable.nameEq, hname]⟩
  have hnodint : ((hsIntersection ATable.nameEq new1.tables old1.tables).map
      ATable.name).Nodup :=
    (List.Sublist.map ATable.name (List.filter_sublist new1.tables)).nodup hnew
  constructor
  · have hothers : ∀ u ∈ hsIntersection ATable.nameEq new1.tables old1.tables,
        u.name ≠ t_new.name →
        (diffTableCols old1 u).filterMap (Operation.addColumnOn t_new.name) = [] := by
      intro u _ hne
      apply List.filterMap_eq_nil_iff.mpr
      intro op hop
      exact colOp_addColumnOn_none
        (List.all_eq_true.mp (diffTableCols_all_colOps old1 u) op hop) hne
    unfold diff
    rw [List.filterMap_append, List.filterMap_append]
    rw [filterMap_flatten_eq_single (Operation.addColumnOn t_new.name) (diffTableCols old1)
      _ t_new hinter hnodint hothers]
    rw [filterMap_addColumnOn_mapAddTable, filterMap_addColumnOn_mapRemoveTable]
    rw [diffTableCols_filterMap_addCol old1 t_old t_new hold hto hname]
    simp
  · have hothers : ∀ u ∈ hsIntersection ATable.nameEq new1.tables old1.tables,
        u.name ≠ t_new.name →
        (diffTableCols old1 u).filterMap (Operation.removeColumnOn t_new.name) = [] := by
      intro u _ hne
      apply List.filterMap_eq_nil_iff.mpr
      intro op hop
      exact colOp_removeColumnOn_none
        (List.all_eq_true.mp (diffTableCols_all_colOps old1 u) op hop) hne
    unfold diff
    rw [List.filterMap_append, List.filterMap_append]
    rw [filterMap_flatten_eq_single (Operation.removeColumnOn t_new.name) (diffTableCols old1)
      _ t_new hinter hnodint hothers]
    rw [filterMap_removeColumnOn_mapAddTable, filterMap_removeColumnOn_mapRemoveTable]
    rw [diffTableCols_filterMap_removeCol old1 t_old t_new hold hto hname]
    simp

/-- Scenario A old snapshot: users(id pk int, name text). -/
def dbOldA : ADB := { tables := [usersOldT] }

/-- Scenario A new snapshot: users(id pk int, name text, email text). -/
def dbNewA : ADB := { tables := [usersNewT] }

/-- C8 witness: Scenario A.  The general characterisation applied to the
concrete users tables, and the concrete diff is exactly one
AddColumn("users", email). -/
theorem c8_per_table_column_ops_witness :
    ((diff dbOldA dbNewA).filterMap (Operation.addColumnOn usersNewT.name)
        = hsDifference AColumn.nameEq usersNewT.columns usersOldT.columns
      ∧ (diff dbOldA dbNewA).filterMap (Operation.removeColumnOn usersNewT.name)
        = (hsDifference AColumn.nameEq usersOldT.columns usersNewT.columns).map AColumn.name)
    ∧ diff dbOldA dbNewA = [Operation.AddColumn "users" emailCol] :=
  ⟨c8_per_table_column_ops dbOldA dbNewA (by decide) (by decide) usersOldT usersNewT
      (by decide) (by decide) (by decide), by decide⟩
